import Mathlib

/-!
# makeconsole: a shallow embedding of `main.go`

Go strings are byte sequences: `len` counts bytes and `s[i:j]` slices bytes, so a
Go string is embedded as a list of bytes.  Stateful code (the response writer, the
template map) is embedded by explicit state passing; code that can panic or fail
to terminate returns `Except`.
-/

set_option autoImplicit false

namespace MakeConsole

/-! ## Go strings -/

/-- A Go `string`: an immutable sequence of bytes. -/
abbrev GoString := List UInt8

/-- The bytes of a source-code string literal (Go source is UTF-8). -/
def utf8 (s : String) : GoString := s.toUTF8.data.toList

deriving instance DecidableEq for Except

/-! ## `limitTo` (main.go, lines 94-104) -/

/-- Ways in which a Go call fails to return normally. -/
inductive Fault where
  /-- The runtime panic `slice bounds out of range`. -/
  | sliceBounds
  /-- The call depth exceeded the fuel given to the model. -/
  | outOfFuel
  deriving DecidableEq, Repr

/-- The body of the `for` loop of `limitTo` for the element `s = a[i]`, where
`result` is the slice built so far and `rec` is the recursive call
`limitTo([]string{...}, maxSize)`.  `s[:maxSize]` is evaluated first and panics
for a negative `maxSize`. -/
def limitToStep (rec : List GoString → Except Fault (List GoString)) (maxSize : Int)
    (result : List GoString) (s : GoString) : Except Fault (List GoString) :=
  if (s.length : Int) ≤ maxSize then
    .ok (result ++ [s])
  else if maxSize < 0 then
    .error .sliceBounds
  else
    match rec [s.drop maxSize.toNat] with
    | .ok r => .ok ((result ++ [s.take maxSize.toNat]) ++ r)
    | .error e => .error e

/-- The loop `for i := 0; i < len(a); i++` of `limitTo`, started with the slice
`result`. -/
def limitToLoop (rec : List GoString → Except Fault (List GoString)) (maxSize : Int) :
    List GoString → List GoString → Except Fault (List GoString)
  | result, [] => .ok result
  | result, s :: rest =>
    match limitToStep rec maxSize result s with
    | .ok result1 => limitToLoop rec maxSize result1 rest
    | .error e => .error e

/-- The function `limitTo(a, maxSize)`; `fuel` bounds the depth of the recursion. -/
def limitTo : Nat → List GoString → Int → Except Fault (List GoString)
  | 0, _, _ => .error .outOfFuel
  | fuel + 1, a, maxSize => limitToLoop (fun b => limitTo fuel b maxSize) maxSize [] a

/-- Fuel that suffices for `limitTo` on `a` when `maxSize` is positive: one more
than the length of the longest element. -/
def limitToFuel (a : List GoString) : Nat :=
  (a.map List.length).foldr max 0 + 1

/-! ### The specification's description of `limitTo` -/

/-- The pieces contributed by one input element, as the specification words it: an
element of length at most `maxSize` contributes itself unchanged; a longer element
contributes its consecutive `maxSize`-length substrings followed by its remainder. -/
def specPieces (maxSize : Nat) (s : GoString) : List GoString :=
  if s.length ≤ maxSize then [s]
  else
    let k := (s.length - 1) / maxSize
    (List.range k).map (fun i => (s.drop (i * maxSize)).take maxSize) ++ [s.drop (k * maxSize)]

/-- The specification's `limitTo`: the in-order concatenation of one piece list per
input element. -/
def specLimitTo (a : List GoString) (maxSize : Nat) : List GoString :=
  (a.map (specPieces maxSize)).flatten

/-! ## Library functions used by `main.go`

The Go standard library and the third-party packages are not part of the
repository.  The pure functions are embedded from their documented behaviour;
what depends on the outside world (file system, template engine, Unicode tables,
the network connection) is a field of `Extern`. -/

/-- Go's `strings.HasSuffix(s, suffix)`:
`len(s) >= len(suffix) && s[len(s)-len(suffix):] == suffix`. -/
def HasSuffix (s suffix : GoString) : Bool :=
  decide (suffix.length ≤ s.length) && s.drop (s.length - suffix.length) == suffix

/-- Go's `strings.Split(s, sep)` for a separator `sep` of one byte: the substrings
between the separators, always at least one. -/
def Split (s : GoString) (sep : UInt8) : List GoString :=
  match s with
  | [] => [[]]
  | c :: t =>
    if c = sep then [] :: Split t sep
    else
      match Split t sep with
      | [] => [[c]]
      | h :: r => (c :: h) :: r

/-- The ASCII branch of `strings.ToLower` on one byte. -/
def lowerByte (c : UInt8) : UInt8 :=
  if 65 ≤ c ∧ c ≤ 90 then c + 32 else c

/-- Go's `strings.ToLower(s)`: a string of ASCII bytes only is lowered byte by byte;
any other string goes through `strings.Map(unicode.ToLower, s)`, here `mapLower`. -/
def ToLower (mapLower : GoString → GoString) (s : GoString) : GoString :=
  if s.all (fun c => c < 128) then s.map lowerByte else mapLower s

/-- The replacement `html.EscapeString` makes for one byte: its replacer maps
`&`, `'`, `<`, `>` and `"` and leaves every other byte alone. -/
def escapeByte (c : UInt8) : GoString :=
  if c = 38 then utf8 "&amp;"
  else if c = 39 then utf8 "&#39;"
  else if c = 60 then utf8 "&lt;"
  else if c = 62 then utf8 "&gt;"
  else if c = 34 then utf8 "&#34;"
  else [c]

/-- Go's `html.EscapeString(s)`: every byte replaced as `escapeByte` says. -/
def EscapeString (s : GoString) : GoString :=
  (s.map escapeByte).flatten

/-- The two errors of package `strconv`. -/
inductive NumErr where
  | ErrSyntax
  | ErrRange
  deriving DecidableEq, Repr

/-- Go `error` values met by the program. -/
inductive GoError where
  /-- A `*strconv.NumError` with its fields `Func`, `Num` and `Err`. -/
  | numError (func : GoString) (num : GoString) (err : NumErr)
  /-- The value of `errors.New(text)`. -/
  | errorsNew (text : GoString)
  /-- An error made outside the program: by `os`, `io`, the template engine or the
  response writer. -/
  | external (text : GoString)
  deriving DecidableEq, Repr

/-- The digit loop of `strconv.ParseUint(s, 10, 64)`: `n` is the value so far.  A
byte that is no digit is a syntax error; a value above `1<<64 - 1` is a range
error, reported as soon as it is reached. -/
def parseUintLoop : Nat → List UInt8 → Except NumErr Nat
  | n, [] => .ok n
  | n, c :: t =>
    if c < 48 ∨ 57 < c then .error .ErrSyntax
    else if (2 ^ 64 - 1) / 10 + 1 ≤ n then .error .ErrRange
    else if 2 ^ 64 - 1 < n * 10 + (c.toNat - 48) then .error .ErrRange
    else parseUintLoop (n * 10 + (c.toNat - 48)) t

/-- Go's `strconv.ParseInt(s, 10, 0)` on a 64-bit platform, as a value and an optional
error kind: an optional sign, then at least one digit; a value outside
`[-1<<63, 1<<63 - 1]` is clamped and reported as a range error. -/
def parseInt (s : GoString) : Int × Option NumErr :=
  match s with
  | [] => (0, some .ErrSyntax)
  | c :: t =>
    let neg : Bool := c = 45
    let digits : GoString := if c = 43 ∨ c = 45 then t else c :: t
    if digits = [] then (0, some .ErrSyntax)
    else
      match parseUintLoop 0 digits with
      | .error .ErrSyntax => (0, some .ErrSyntax)
      | .error .ErrRange => (if neg then -(2 ^ 63) else 2 ^ 63 - 1, some .ErrRange)
      | .ok un =>
        if !neg && decide (2 ^ 63 ≤ un) then (2 ^ 63 - 1, some .ErrRange)
        else if neg && decide (2 ^ 63 < un) then (-(2 ^ 63), some .ErrRange)
        else (if neg then -(un : Int) else (un : Int), none)

/-- Go's `strconv.Atoi(s)`: the value and the error, a `*NumError` naming `Atoi` and `s`. -/
def Atoi (s : GoString) : Int × Option GoError :=
  match parseInt s with
  | (n, none) => (n, none)
  | (n, some e) => (n, some (.numError (utf8 "Atoi") s e))

/-- A value in the map that `structs.Map` builds. -/
inductive Value where
  | strings (v : List GoString)
  | int (v : Int)
  | string (v : GoString)
  deriving DecidableEq, Repr

/-- An `os.FileInfo` as far as `main` reads it. -/
structure FileInfo where
  Name : GoString
  IsDir : Bool
  deriving DecidableEq, Repr

/-- The outside world of the program. -/
structure Extern where
  /-- The call `strings.Map(unicode.ToLower, s)`, used by `strings.ToLower` on a string
  with a non-ASCII byte. -/
  mapLower : GoString → GoString
  /-- The result of `ioutil.ReadDir` on the working directory. -/
  readDir : Except GoError (List FileInfo)
  /-- The call `os.Open(name)` followed by `io.Copy(&buf, f)`: the contents of the file,
  or the error of either call. -/
  readFile : GoString → Except GoError GoString
  /-- The call `renderEngine.ParseAndRender(buf, m)`: the bytes rendered, or, when the
  engine returns a source error, the value of its `Cause()`, which can be `nil`
  (`none`). -/
  parseAndRender : GoString → List (GoString × Value) → Except (Option GoError) GoString
  /-- The error returned by `w.Write(p)`, `none` for `nil`. -/
  writeErr : GoString → Option GoError

/-! ## The program -/

/-- A Go `map[string][]byte`, as its entries; a key has at most one entry. -/
abbrev TemplateMap := List (GoString × GoString)

/-- The map read `m[key]` with its `ok` flag. -/
def TemplateMap.get (m : TemplateMap) (key : GoString) : Option GoString :=
  (m.find? (fun e => e.1 = key)).map (fun e => e.2)

/-- The map write `m[key] = value`. -/
def TemplateMap.set (m : TemplateMap) (key value : GoString) : TemplateMap :=
  (key, value) :: m.filter (fun e => e.1 ≠ key)

/-- The package-level variables: `noCacheFlag` is a `*bool` (`none` is `nil`),
`templates` the template map (empty when it was never made: reads of a nil map
miss). -/
structure Globals where
  noCacheFlag : Option Bool
  templates : TemplateMap

/-- The condition `noCacheFlag == nil || *noCacheFlag == false`: cached mode. -/
def Globals.cached (noCacheFlag : Option Bool) : Bool :=
  match noCacheFlag with
  | none => true
  | some b => b == false

/-- The function `loadTemplateFromFS` (main.go, lines 77-92). -/
def loadTemplateFromFS (ext : Extern) (name : GoString) :
    Except GoError (GoString × GoString) :=
  if HasSuffix name (utf8 ".svg") then
    match ext.readFile name with
    | .error err => .error err
    | .ok buf => .ok (name.take (name.length - 4), buf)
  else
    .error (.errorsNew (utf8 "not found"))

/-- How `main` ends before it serves requests. -/
inductive Abort where
  /-- The call `log.Fatal(err)`. -/
  | fatal (err : GoError)
  /-- The call `log.Panic(err)`. -/
  | panic (err : GoError)
  deriving DecidableEq, Repr

/-- The loop `for _, file := range files` of `main` (lines 45-53), from the map
`templates`. -/
def mainLoop (ext : Extern) : TemplateMap → List FileInfo → Except Abort TemplateMap
  | templates, [] => .ok templates
  | templates, file :: rest =>
    if !file.IsDir && HasSuffix (ToLower ext.mapLower file.Name) (utf8 ".svg") then
      match loadTemplateFromFS ext file.Name with
      | .error err => .error (.panic err)
      | .ok (name, bytes) => mainLoop ext (templates.set name bytes) rest
    else
      mainLoop ext templates rest

/-- The start of `main` (lines 38-54): read the directory and, in cached mode,
fill `templates`.  The result is the value of `templates` when the handlers are
registered. -/
def main (ext : Extern) (noCacheFlag : Option Bool) : Except Abort TemplateMap :=
  match ext.readDir with
  | .error err => .error (.fatal err)
  | .ok files =>
    if Globals.cached noCacheFlag then mainLoop ext [] files
    else .ok []

/-- The struct `binding` (main.go, lines 106-113). -/
structure binding where
  Lines : List GoString
  Width : Int
  Radius : Int
  Padding : Int
  PaddingColor : GoString
  Template : GoString
  deriving DecidableEq, Repr

/-- The zero value of `binding`. -/
def binding.zero : binding :=
  ⟨[], 0, 0, 0, [], []⟩

/-- A call made on the `http.ResponseWriter` of a request. -/
inductive Call where
  /-- The call `w.Header().Set(key, value)`. -/
  | headerSet (key value : GoString)
  /-- The call `http.Error(w, err.Error(), code)`: status `code` with the text of
  `err` as the body. -/
  | httpError (err : GoError) (code : Nat)
  /-- The call `w.Write(p)`. -/
  | write (p : GoString)
  deriving DecidableEq, Repr

/-- An `http.ResponseWriter`: the calls made on it so far, in order. -/
abbrev ResponseWriter := List Call

/-- The loop `for k, v := range values` of `parseUrlValues` (lines 119-150);
`values` lists the entries of the map in the order in which `range` visits them.
A failed `Atoi` still assigns its value, reports the error and returns. -/
def parseUrlValuesLoop (ext : Extern) :
    binding → ResponseWriter → List (GoString × List GoString) → binding × ResponseWriter
  | b, w, [] => (b, w)
  | b, w, (_, []) :: rest => parseUrlValuesLoop ext b w rest
  | b, w, (k, v0 :: _) :: rest =>
    let key := ToLower ext.mapLower k
    if key = utf8 "lines" then
      parseUrlValuesLoop ext { b with Lines := Split v0 10 } w rest
    else if key = utf8 "line" then
      parseUrlValuesLoop ext { b with Lines := [v0] } w rest
    else if key = utf8 "width" then
      match Atoi v0 with
      | (n, some err) => ({ b with Width := n }, w ++ [Call.httpError err 500])
      | (n, none) => parseUrlValuesLoop ext { b with Width := n } w rest
    else if key = utf8 "radius" then
      match Atoi v0 with
      | (n, some err) => ({ b with Radius := n }, w ++ [Call.httpError err 500])
      | (n, none) => parseUrlValuesLoop ext { b with Radius := n } w rest
    else if key = utf8 "padding" then
      match Atoi v0 with
      | (n, some err) => ({ b with Padding := n }, w ++ [Call.httpError err 500])
      | (n, none) => parseUrlValuesLoop ext { b with Padding := n } w rest
    else if key = utf8 "padding-color" then
      parseUrlValuesLoop ext { b with PaddingColor := v0 } w rest
    else if key = utf8 "template" then
      parseUrlValuesLoop ext { b with Template := v0 } w rest
    else
      parseUrlValuesLoop ext b w rest

/-- The function `parseUrlValues` (main.go, lines 115-152) on the query values
`values = r.URL.Query()`, in the order in which the loop visits them. -/
def parseUrlValues (ext : Extern) (w : ResponseWriter)
    (values : List (GoString × List GoString)) : binding × ResponseWriter :=
  parseUrlValuesLoop ext { binding.zero with Template := utf8 "terminal" } w values

/-- The call `structs.Map(binding)`: every field is tagged `omitempty`, so a field holding
its zero value is left out. -/
def structsMap (b : binding) : List (GoString × Value) :=
  (if b.Lines = [] then [] else [(utf8 "Lines", Value.strings b.Lines)]) ++
  (if b.Width = 0 then [] else [(utf8 "Width", Value.int b.Width)]) ++
  (if b.Radius = 0 then [] else [(utf8 "Radius", Value.int b.Radius)]) ++
  (if b.Padding = 0 then [] else [(utf8 "Padding", Value.int b.Padding)]) ++
  (if b.PaddingColor = [] then [] else [(utf8 "PaddingColor", Value.string b.PaddingColor)]) ++
  (if b.Template = [] then [] else [(utf8 "Template", Value.string b.Template)])

/-- The text `fmt.Sprintf` makes of the format of line 265 and `name`: the format
up to the verb `%s`, then `name`, then the rest of the format. -/
def noSuchTemplate (name : GoString) : GoString :=
  utf8 "No such template `" ++ name ++ utf8 "'"

/-- Lines 256-274 of `writeSvg`, the template lookup: the template bytes `buf` and
the binding as the lookup leaves it, or the error returned. -/
def writeSvgResolve (ext : Extern) (g : Globals) (b : binding) :
    Except GoError (GoString × binding) :=
  if Globals.cached g.noCacheFlag then
    match g.templates.get b.Template with
    | some buf => .ok (buf, b)
    | none =>
      match g.templates.get (utf8 "terminal") with
      | none => .error (.errorsNew (utf8 "unable to find default template `terminal'"))
      | some buf =>
        .ok (buf, { b with Lines := [noSuchTemplate b.Template], Width := 0 })
  else
    match loadTemplateFromFS ext (b.Template ++ utf8 ".svg") with
    | .error err => .error err
    | .ok (_, buf) => .ok (buf, b)

/-- Lines 276-279 of `writeSvg`, the escaping step: every line is replaced by its
escaped form. -/
def writeSvgEscape (b : binding) : binding :=
  { b with Lines := b.Lines.map EscapeString }

/-- Lines 276-288 of `writeSvg`, the rendering of the template bytes `buf` with the
binding `b`: escape the lines, call the template engine on the map of the binding,
and either return the cause of its error (which can be `nil`, and then nothing is
written and no error is returned) or write what it rendered.  The result is the
error returned and the writer afterwards. -/
def writeSvgRender (ext : Extern) (buf : GoString) (b : binding) (w : ResponseWriter) :
    Option GoError × ResponseWriter :=
  match ext.parseAndRender buf (structsMap (writeSvgEscape b)) with
  | .error cause => (cause, w)
  | .ok out => (ext.writeErr out, w ++ [Call.write out])

/-- The function `writeSvg` (main.go, lines 255-288): the error returned and the
writer afterwards. -/
def writeSvg (ext : Extern) (g : Globals) (b : binding) (w : ResponseWriter) :
    Option GoError × ResponseWriter :=
  match writeSvgResolve ext g b with
  | .error err => (some err, w)
  | .ok (buf, b1) => writeSvgRender ext buf b1 w

/-- The function `handleSvg` (main.go, lines 154-163) on a request with the query
values `values`: the writer afterwards. -/
def handleSvg (ext : Extern) (g : Globals) (values : List (GoString × List GoString))
    (w : ResponseWriter) : ResponseWriter :=
  match parseUrlValues ext w values with
  | (b, w1) =>
    match writeSvg ext g b (w1 ++ [Call.headerSet (utf8 "Content-Type") (utf8 "image/svg+xml")]) with
    | (some err, w2) => w2 ++ [Call.httpError err 500]
    | (none, w2) => w2

/-! ## Vocabulary of the statements -/

/-- The five entities that `html.EscapeString` writes. -/
def entities : List GoString :=
  [utf8 "&amp;", utf8 "&lt;", utf8 "&gt;", utf8 "&#39;", utf8 "&#34;"]

/-- Every `&` (byte 38) of the line starts one of the five entities: whatever stands
before it, the line from the `&` on begins with an entity. -/
def AmpStartsEntity (l : GoString) : Prop :=
  ∀ pre post : GoString, l = pre ++ 38 :: post → ∃ e ∈ entities, e <+: 38 :: post

/-- A line is escaped when it holds none of the bytes `<` (60), `>` (62), `'` (39),
`"` (34) and every `&` in it starts one of the five entities. -/
def Escaped (l : GoString) : Prop :=
  (∀ c ∈ l, c ≠ 60 ∧ c ≠ 62 ∧ c ≠ 39 ∧ c ≠ 34) ∧ AmpStartsEntity l

/-- Every list of lines in the map `m` holds escaped lines only. -/
def EscapedMap (m : List (GoString × Value)) : Prop :=
  ∀ (key : GoString) (ls : List GoString), (key, Value.strings ls) ∈ m → ∀ l ∈ ls, Escaped l

/-- A sample outside world for concrete evaluations: a directory holding the one
file `terminal.svg`, and a template engine that copies the template and appends
the lines it is given. -/
def sampleExtern : Extern where
  mapLower := fun s => s
  readDir := .ok [⟨utf8 "terminal.svg", false⟩]
  readFile := fun name =>
    if name = utf8 "terminal.svg" then .ok (utf8 "<svg>") else .error (.external (utf8 "open"))
  parseAndRender := fun buf m =>
    match m.lookup (utf8 "Lines") with
    | some (Value.strings ls) => .ok (buf ++ ls.flatten)
    | _ => .ok buf
  writeErr := fun _ => none

/-- The package-level variables after `main` has run in `sampleExtern` with the
cache enabled. -/
def sampleGlobals : Globals :=
  ⟨some false, [(utf8 "terminal", utf8 "<svg>")]⟩

/-! ## Lemmas about `limitTo` -/

theorem specPieces_of_le (m : Nat) (s : GoString) (h : s.length ≤ m) :
    specPieces m s = [s] := by
  simp [specPieces, h]

theorem specPieces_unfold (m : Nat) (hm : 0 < m) (s : GoString) (h : m < s.length) :
    specPieces m s = s.take m :: specPieces m (s.drop m) := by
  have hlen : (s.drop m).length = s.length - m := List.length_drop m s
  by_cases h2 : (s.drop m).length ≤ m
  · -- exactly one full piece, then the remainder
    have hk : (s.length - 1) / m = 1 := by
      apply Nat.div_eq_of_lt_le
      · omega
      · omega
    rw [specPieces_of_le m _ h2]
    simp [specPieces, Nat.not_le.mpr h, hk, List.range_succ]
  · have hk : (s.length - 1) / m = (s.length - m - 1) / m + 1 := by
      have h3 : s.length - 1 = (s.length - m - 1) + m := by omega
      rw [h3, Nat.add_div_right _ hm]
    have hmul : ((s.length - m - 1) / m + 1) * m = m + (s.length - m - 1) / m * m := by ring
    have hR : specPieces m (s.drop m) =
        (List.range ((s.length - m - 1) / m)).map
          (fun i => ((s.drop m).drop (i * m)).take m) ++
          [(s.drop m).drop ((s.length - m - 1) / m * m)] := by
      have h2b : ¬ (s.length - m ≤ m) := by omega
      simp only [specPieces, h2b, if_false, hlen]
    have hL : specPieces m s =
        (List.range ((s.length - m - 1) / m + 1)).map (fun i => (s.drop (i * m)).take m) ++
          [s.drop (((s.length - m - 1) / m + 1) * m)] := by
      simp only [specPieces, Nat.not_le.mpr h, if_false, hk]
    rw [hL, hR, List.range_succ_eq_map, List.map_cons, List.map_map, List.cons_append,
      List.drop_drop, hmul]
    simp only [Nat.zero_mul, List.drop_zero, List.cons.injEq, true_and,
      List.append_cancel_right_eq]
    apply List.map_congr_left
    intro i _
    simp only [Function.comp, Nat.succ_eq_add_one, List.drop_drop]
    congr 2
    ring

theorem limitToStep_ok (rec : List GoString → Except Fault (List GoString)) (m : Nat)
    (hm : 0 < m) (result : List GoString) (s : GoString)
    (hrec : m < s.length → rec [s.drop m] = .ok (specPieces m (s.drop m))) :
    limitToStep rec (m : Int) result s = .ok (result ++ specPieces m s) := by
  unfold limitToStep
  by_cases h : s.length ≤ m
  · have h1 : (s.length : Int) ≤ (m : Int) := by exact_mod_cast h
    simp [h1, specPieces_of_le m s h]
  · have h1 : ¬ (s.length : Int) ≤ (m : Int) := by exact_mod_cast h
    have h2 : ¬ ((m : Int) < 0) := by omega
    have h3 : m < s.length := Nat.not_le.mp h
    simp [h1, h2, hrec h3, specPieces_unfold m hm s h3]

theorem limitToLoop_ok (rec : List GoString → Except Fault (List GoString)) (m : Nat)
    (hm : 0 < m) (a : List GoString) :
    ∀ result : List GoString,
      (∀ s ∈ a, m < s.length → rec [s.drop m] = .ok (specPieces m (s.drop m))) →
      limitToLoop rec (m : Int) result a = .ok (result ++ specLimitTo a m) := by
  induction a with
  | nil => intro result _; simp [limitToLoop, specLimitTo]
  | cons s rest ih =>
    intro result hrec
    have hs := limitToStep_ok rec m hm result s (hrec s (List.mem_cons_self s rest))
    have hrest := ih (result ++ specPieces m s)
      (fun t ht => hrec t (List.mem_cons_of_mem s ht))
    simp only [limitToLoop, hs, hrest]
    simp [specLimitTo]

theorem length_lt_limitToFuel (a : List GoString) (s : GoString) (h : s ∈ a) :
    s.length < limitToFuel a := by
  unfold limitToFuel
  induction a with
  | nil => cases h
  | cons t rest ih =>
    simp only [List.map_cons, List.foldr_cons]
    rcases List.mem_cons.mp h with h1 | h1
    · subst h1; omega
    · have := ih h1; omega

theorem limitTo_nat_eq (m : Nat) (hm : 0 < m) :
    ∀ (fuel : Nat) (a : List GoString), limitToFuel a ≤ fuel →
      limitTo fuel a (m : Int) = .ok (specLimitTo a m) := by
  intro fuel
  induction fuel with
  | zero => intro a h; simp [limitToFuel] at h
  | succ fuel ih =>
    intro a h
    have key := limitToLoop_ok (fun b => limitTo fuel b (m : Int)) m hm a []
      (by
        intro s hs hlt
        have h1 : s.length < limitToFuel a := length_lt_limitToFuel a s hs
        have h2 : limitToFuel [s.drop m] ≤ fuel := by
          simp [limitToFuel]; omega
        have := ih [s.drop m] h2
        simpa [specLimitTo] using this)
    simpa [limitTo] using key

/-- For a positive `maxSize` and enough fuel, `limitTo` returns, and what it returns
is the specification's list of pieces. -/
theorem limitTo_eq (a : List GoString) (maxSize : Int) (h : 0 < maxSize) (fuel : Nat)
    (hf : limitToFuel a ≤ fuel) :
    limitTo fuel a maxSize = .ok (specLimitTo a maxSize.toNat) := by
  have h1 : ((maxSize.toNat : Nat) : Int) = maxSize := Int.toNat_of_nonneg (le_of_lt h)
  have h2 : 0 < maxSize.toNat := by omega
  have := limitTo_nat_eq maxSize.toNat h2 fuel a hf
  rwa [h1] at this

/-- Without a positive `maxSize` the recursion makes no progress: for `maxSize = 0`
and a non-empty element no amount of fuel lets `limitTo` return. -/
theorem limitTo_zero_outOfFuel (c : UInt8) (s : GoString) :
    ∀ fuel : Nat, limitTo fuel [c :: s] 0 = .error .outOfFuel := by
  intro fuel
  induction fuel with
  | zero => rfl
  | succ fuel ih =>
    have h1 : ¬ (((c :: s).length : Int) ≤ 0) := by
      simp only [List.length_cons, Nat.cast_add, Nat.cast_one]; omega
    simp only [limitTo, limitToLoop, limitToStep, Int.toNat_zero, List.drop_zero, ih, h1,
      if_false, lt_self_iff_false]

/-- A negative `maxSize` makes `limitTo` panic on its first element. -/
theorem limitTo_neg_panics (s : GoString) (rest : List GoString) (maxSize : Int)
    (h : maxSize < 0) (fuel : Nat) :
    limitTo (fuel + 1) (s :: rest) maxSize = .error .sliceBounds := by
  have h1 : ¬ ((s.length : Int) ≤ maxSize) := by omega
  simp [limitTo, limitToLoop, limitToStep, h1, h]

theorem specPieces_props (m : Nat) (hm : 0 < m) :
    ∀ (n : Nat) (s : GoString), s.length = n →
      (specPieces m s).flatten = s ∧ (∀ p ∈ specPieces m s, p.length ≤ m) ∧
        (s ≠ [] → ∀ p ∈ specPieces m s, p ≠ []) := by
  intro n
  induction n using Nat.strong_induction_on with
  | _ n ih =>
    intro s hn
    by_cases h : s.length ≤ m
    · rw [specPieces_of_le m s h]
      refine ⟨by simp, ?_, ?_⟩
      · intro p hp
        rw [List.mem_singleton.mp hp]; exact h
      · intro hs p hp
        rw [List.mem_singleton.mp hp]; exact hs
    · have h3 : m < s.length := Nat.not_le.mp h
      have hlen : (s.drop m).length = s.length - m := List.length_drop m s
      obtain ⟨i1, i2, i3⟩ := ih (s.drop m).length (by omega) (s.drop m) rfl
      have hne : s.drop m ≠ [] := by
        intro h0
        rw [h0] at hlen
        simp at hlen
        omega
      rw [specPieces_unfold m hm s h3]
      refine ⟨?_, ?_, ?_⟩
      · rw [List.flatten_cons, i1, List.take_append_drop]
      · intro p hp
        rcases List.mem_cons.mp hp with hp1 | hp1
        · rw [hp1, List.length_take]; omega
        · exact i2 p hp1
      · intro _ p hp
        rcases List.mem_cons.mp hp with hp1 | hp1
        · intro h0
          have h4 : (s.take m).length = 0 := by rw [← hp1, h0]; rfl
          rw [List.length_take] at h4
          omega
        · exact i3 hne p hp1

theorem specLimitTo_cons (m : Nat) (s : GoString) (rest : List GoString) :
    specLimitTo (s :: rest) m = specPieces m s ++ specLimitTo rest m := by
  simp [specLimitTo]

theorem specLimitTo_length_le (m : Nat) (hm : 0 < m) (a : List GoString) :
    ∀ p ∈ specLimitTo a m, p.length ≤ m := by
  induction a with
  | nil => intro p hp; simp [specLimitTo] at hp
  | cons s rest ih =>
    intro p hp
    rw [specLimitTo_cons, List.mem_append] at hp
    rcases hp with hp | hp
    · exact (specPieces_props m hm s.length s rfl).2.1 p hp
    · exact ih p hp

theorem specLimitTo_flatten (m : Nat) (hm : 0 < m) (a : List GoString) :
    (specLimitTo a m).flatten = a.flatten := by
  induction a with
  | nil => simp [specLimitTo]
  | cons s rest ih =>
    rw [specLimitTo_cons, List.flatten_append, ih, (specPieces_props m hm s.length s rfl).1,
      List.flatten_cons]

theorem specPieces_count_nil (m : Nat) (hm : 0 < m) (s : GoString) :
    (specPieces m s).count [] = if s = [] then 1 else 0 := by
  by_cases hs : s = []
  · subst hs
    simp [specPieces]
  · rw [if_neg hs]
    apply List.count_eq_zero.mpr
    intro hmem
    exact (specPieces_props m hm s.length s rfl).2.2 hs [] hmem rfl

theorem specLimitTo_count_nil (m : Nat) (hm : 0 < m) (a : List GoString) :
    (specLimitTo a m).count [] = a.count [] := by
  induction a with
  | nil => simp [specLimitTo]
  | cons s rest ih =>
    rw [specLimitTo_cons, List.count_append, ih, specPieces_count_nil m hm, List.count_cons]
    by_cases hs : s = []
    · subst hs; simp; omega
    · have hs2 : ¬ ((s == []) = true) := by simpa using hs
      simp [hs, hs2]

/-! ## Lemmas about escaping -/

theorem utf8_amp : utf8 "&amp;" = [38, 97, 109, 112, 59] := by decide

theorem utf8_apos : utf8 "&#39;" = [38, 35, 51, 57, 59] := by decide

theorem utf8_lt : utf8 "&lt;" = [38, 108, 116, 59] := by decide

theorem utf8_gt : utf8 "&gt;" = [38, 103, 116, 59] := by decide

theorem utf8_quot : utf8 "&#34;" = [38, 35, 51, 52, 59] := by decide

theorem ampStartsEntity_nil : AmpStartsEntity [] := by
  intro pre post h
  cases pre <;> simp at h

theorem ampStartsEntity_cons (c : UInt8) (l : GoString)
    (hc : c = 38 → ∃ e ∈ entities, e <+: 38 :: l) (hl : AmpStartsEntity l) :
    AmpStartsEntity (c :: l) := by
  intro pre post h
  cases pre with
  | nil =>
    simp only [List.nil_append, List.cons.injEq] at h
    obtain ⟨h1, h2⟩ := h
    rw [← h2]
    exact hc h1
  | cons p pre1 =>
    simp only [List.cons_append, List.cons.injEq] at h
    exact hl pre1 post h.2

theorem ampStartsEntity_cons_ne (c : UInt8) (l : GoString) (hc : c ≠ 38)
    (hl : AmpStartsEntity l) : AmpStartsEntity (c :: l) :=
  ampStartsEntity_cons c l (fun h => absurd h hc) hl

theorem ampStartsEntity_escapeByte (c : UInt8) (l : GoString) (hl : AmpStartsEntity l) :
    AmpStartsEntity (escapeByte c ++ l) := by
  unfold escapeByte
  split_ifs with h1 h2 h3 h4 h5
  · rw [utf8_amp]
    refine ampStartsEntity_cons _ _ (fun _ => ⟨utf8 "&amp;", by simp [entities], ?_⟩) ?_
    · rw [utf8_amp]; exact ⟨l, rfl⟩
    · refine ampStartsEntity_cons_ne _ _ (by decide) ?_
      refine ampStartsEntity_cons_ne _ _ (by decide) ?_
      refine ampStartsEntity_cons_ne _ _ (by decide) ?_
      exact ampStartsEntity_cons_ne _ _ (by decide) hl
  · rw [utf8_apos]
    refine ampStartsEntity_cons _ _ (fun _ => ⟨utf8 "&#39;", by simp [entities], ?_⟩) ?_
    · rw [utf8_apos]; exact ⟨l, rfl⟩
    · refine ampStartsEntity_cons_ne _ _ (by decide) ?_
      refine ampStartsEntity_cons_ne _ _ (by decide) ?_
      refine ampStartsEntity_cons_ne _ _ (by decide) ?_
      exact ampStartsEntity_cons_ne _ _ (by decide) hl
  · rw [utf8_lt]
    refine ampStartsEntity_cons _ _ (fun _ => ⟨utf8 "&lt;", by simp [entities], ?_⟩) ?_
    · rw [utf8_lt]; exact ⟨l, rfl⟩
    · refine ampStartsEntity_cons_ne _ _ (by decide) ?_
      refine ampStartsEntity_cons_ne _ _ (by decide) ?_
      exact ampStartsEntity_cons_ne _ _ (by decide) hl
  · rw [utf8_gt]
    refine ampStartsEntity_cons _ _ (fun _ => ⟨utf8 "&gt;", by simp [entities], ?_⟩) ?_
    · rw [utf8_gt]; exact ⟨l, rfl⟩
    · refine ampStartsEntity_cons_ne _ _ (by decide) ?_
      refine ampStartsEntity_cons_ne _ _ (by decide) ?_
      exact ampStartsEntity_cons_ne _ _ (by decide) hl
  · rw [utf8_quot]
    refine ampStartsEntity_cons _ _ (fun _ => ⟨utf8 "&#34;", by simp [entities], ?_⟩) ?_
    · rw [utf8_quot]; exact ⟨l, rfl⟩
    · refine ampStartsEntity_cons_ne _ _ (by decide) ?_
      refine ampStartsEntity_cons_ne _ _ (by decide) ?_
      refine ampStartsEntity_cons_ne _ _ (by decide) ?_
      exact ampStartsEntity_cons_ne _ _ (by decide) hl
  · exact ampStartsEntity_cons_ne c l h1 hl

theorem escapeByte_no_special (c : UInt8) :
    ∀ x ∈ escapeByte c, x ≠ 60 ∧ x ≠ 62 ∧ x ≠ 39 ∧ x ≠ 34 := by
  unfold escapeByte
  split_ifs with h1 h2 h3 h4 h5
  · rw [utf8_amp]; decide
  · rw [utf8_apos]; decide
  · rw [utf8_lt]; decide
  · rw [utf8_gt]; decide
  · rw [utf8_quot]; decide
  · intro x hx
    rw [List.mem_singleton.mp hx]
    exact ⟨h3, h4, h2, h5⟩

theorem EscapeString_cons (c : UInt8) (s : GoString) :
    EscapeString (c :: s) = escapeByte c ++ EscapeString s := by
  simp [EscapeString]

theorem escaped_EscapeString (s : GoString) : Escaped (EscapeString s) := by
  induction s with
  | nil => exact ⟨by simp [EscapeString], ampStartsEntity_nil⟩
  | cons c t ih =>
    rw [EscapeString_cons]
    refine ⟨?_, ampStartsEntity_escapeByte c _ ih.2⟩
    intro x hx
    rcases List.mem_append.mp hx with h | h
    · exact escapeByte_no_special c x h
    · exact ih.1 x h

/-- The predicate `Escaped` rejects a line with a raw `<`. -/
theorem not_escaped_raw_lt : ¬ Escaped (utf8 "<script>") := by
  intro h
  exact (h.1 60 (by decide)).1 rfl

/-- The predicate `Escaped` rejects a line with an `&` that starts no entity. -/
theorem not_escaped_raw_amp : ¬ Escaped (utf8 "a & b") := by
  intro h
  obtain ⟨e, he, hp⟩ := h.2 (utf8 "a ") (utf8 " b") (by decide)
  revert hp
  revert e
  decide

theorem escaped_writeSvgEscape (b : binding) : ∀ l ∈ (writeSvgEscape b).Lines, Escaped l := by
  intro l hl
  simp only [writeSvgEscape, List.mem_map] at hl
  obtain ⟨s, _, hs⟩ := hl
  rw [← hs]
  exact escaped_EscapeString s

/-! ## Lemmas about `structs.Map` -/

theorem structsMap_lookup_Lines (b : binding) :
    (structsMap b).lookup (utf8 "Lines") =
      if b.Lines = [] then none else some (Value.strings b.Lines) := by
  have e2 : (utf8 "Lines" == utf8 "Width") = false := by decide
  have e3 : (utf8 "Lines" == utf8 "Radius") = false := by decide
  have e4 : (utf8 "Lines" == utf8 "Padding") = false := by decide
  have e5 : (utf8 "Lines" == utf8 "PaddingColor") = false := by decide
  have e6 : (utf8 "Lines" == utf8 "Template") = false := by decide
  have e1 : (utf8 "Lines" == utf8 "Lines") = true := by decide
  unfold structsMap
  split_ifs <;>
    simp only [List.lookup, List.nil_append, List.cons_append, List.append_nil, e1, e2, e3,
      e4, e5, e6]

theorem structsMap_lookup_Width (b : binding) :
    (structsMap b).lookup (utf8 "Width") = if b.Width = 0 then none else some (Value.int b.Width) := by
  have e1 : (utf8 "Width" == utf8 "Lines") = false := by decide
  have e2 : (utf8 "Width" == utf8 "Width") = true := by decide
  have e3 : (utf8 "Width" == utf8 "Radius") = false := by decide
  have e4 : (utf8 "Width" == utf8 "Padding") = false := by decide
  have e5 : (utf8 "Width" == utf8 "PaddingColor") = false := by decide
  have e6 : (utf8 "Width" == utf8 "Template") = false := by decide
  unfold structsMap
  split_ifs <;>
    simp only [List.lookup, List.nil_append, List.cons_append, List.append_nil, e1, e2, e3,
      e4, e5, e6]

theorem structsMap_lookup_Radius (b : binding) :
    (structsMap b).lookup (utf8 "Radius") =
      if b.Radius = 0 then none else some (Value.int b.Radius) := by
  have e1 : (utf8 "Radius" == utf8 "Lines") = false := by decide
  have e2 : (utf8 "Radius" == utf8 "Width") = false := by decide
  have e3 : (utf8 "Radius" == utf8 "Radius") = true := by decide
  have e4 : (utf8 "Radius" == utf8 "Padding") = false := by decide
  have e5 : (utf8 "Radius" == utf8 "PaddingColor") = false := by decide
  have e6 : (utf8 "Radius" == utf8 "Template") = false := by decide
  unfold structsMap
  split_ifs <;>
    simp only [List.lookup, List.nil_append, List.cons_append, List.append_nil, e1, e2, e3,
      e4, e5, e6]

theorem structsMap_lookup_Padding (b : binding) :
    (structsMap b).lookup (utf8 "Padding") =
      if b.Padding = 0 then none else some (Value.int b.Padding) := by
  have e1 : (utf8 "Padding" == utf8 "Lines") = false := by decide
  have e2 : (utf8 "Padding" == utf8 "Width") = false := by decide
  have e3 : (utf8 "Padding" == utf8 "Radius") = false := by decide
  have e4 : (utf8 "Padding" == utf8 "Padding") = true := by decide
  have e5 : (utf8 "Padding" == utf8 "PaddingColor") = false := by decide
  have e6 : (utf8 "Padding" == utf8 "Template") = false := by decide
  unfold structsMap
  split_ifs <;>
    simp only [List.lookup, List.nil_append, List.cons_append, List.append_nil, e1, e2, e3,
      e4, e5, e6]

theorem structsMap_lookup_PaddingColor (b : binding) :
    (structsMap b).lookup (utf8 "PaddingColor") =
      if b.PaddingColor = [] then none else some (Value.string b.PaddingColor) := by
  have e1 : (utf8 "PaddingColor" == utf8 "Lines") = false := by decide
  have e2 : (utf8 "PaddingColor" == utf8 "Width") = false := by decide
  have e3 : (utf8 "PaddingColor" == utf8 "Radius") = false := by decide
  have e4 : (utf8 "PaddingColor" == utf8 "Padding") = false := by decide
  have e5 : (utf8 "PaddingColor" == utf8 "PaddingColor") = true := by decide
  have e6 : (utf8 "PaddingColor" == utf8 "Template") = false := by decide
  unfold structsMap
  split_ifs <;>
    simp only [List.lookup, List.nil_append, List.cons_append, List.append_nil, e1, e2, e3,
      e4, e5, e6]

/-- The only list of lines in the map of a binding is the binding's `Lines`. -/
theorem structsMap_strings_mem (b : binding) (key : GoString) (ls : List GoString)
    (h : (key, Value.strings ls) ∈ structsMap b) : ls = b.Lines := by
  unfold structsMap at h
  simp only [List.mem_append] at h
  rcases h with ((((h | h) | h) | h) | h) | h <;> split_ifs at h <;> simp at h
  exact h.2

theorem escapedMap_structsMap_writeSvgEscape (b : binding) :
    EscapedMap (structsMap (writeSvgEscape b)) := by
  intro key ls hmem l hl
  rw [structsMap_strings_mem _ key ls hmem] at hl
  exact escaped_writeSvgEscape b l hl

/-! ## Lemmas about `parseUrlValues` -/

/-- The template name after the loop is the one before it, or the first value of a
key of `values` that lowers to `template`. -/
theorem parseUrlValuesLoop_template (ext : Extern) :
    ∀ (values : List (GoString × List GoString)) (b : binding) (w : ResponseWriter),
      (parseUrlValuesLoop ext b w values).1.Template = b.Template ∨
      ∃ kv ∈ values, ToLower ext.mapLower kv.1 = utf8 "template" ∧
        kv.2.head? = some (parseUrlValuesLoop ext b w values).1.Template := by
  intro values
  induction values with
  | nil => intro b w; left; simp [parseUrlValuesLoop]
  | cons kv rest ih =>
    intro b w
    have lift : ∀ (b1 : binding), b1.Template = b.Template →
        ((parseUrlValuesLoop ext b1 w rest).1.Template = b.Template ∨
          ∃ kv1 ∈ kv :: rest, ToLower ext.mapLower kv1.1 = utf8 "template" ∧
            kv1.2.head? = some (parseUrlValuesLoop ext b1 w rest).1.Template) := by
      intro b1 hb1
      rcases ih b1 w with h | ⟨kv1, hmem, h1, h2⟩
      · left; rw [h, hb1]
      · right; exact ⟨kv1, List.mem_cons_of_mem kv hmem, h1, h2⟩
    obtain ⟨k, v⟩ := kv
    cases v with
    | nil =>
      simp only [parseUrlValuesLoop]
      exact lift b rfl
    | cons v0 vs =>
      simp only [parseUrlValuesLoop]
      split_ifs with h1 h2 h3 h4 h5 h6 h7
      · exact lift _ rfl
      · exact lift _ rfl
      · rcases hA : Atoi v0 with ⟨n, _ | err⟩
        · simp only []; exact lift _ rfl
        · simp only []; left; trivial
      · rcases hA : Atoi v0 with ⟨n, _ | err⟩
        · simp only []; exact lift _ rfl
        · simp only []; left; trivial
      · rcases hA : Atoi v0 with ⟨n, _ | err⟩
        · simp only []; exact lift _ rfl
        · simp only []; left; trivial
      · exact lift _ rfl
      · rcases ih { b with Template := v0 } w with h | ⟨kv1, hmem, h8, h9⟩
        · right
          exact ⟨(k, v0 :: vs), List.mem_cons_self _ _, h7, by simp [h]⟩
        · right; exact ⟨kv1, List.mem_cons_of_mem _ hmem, h8, h9⟩
      · exact lift b rfl

/-! ## The line wrapper -/

/-- C1: for every list `a` and every positive `maxSize`, `limitTo(a, maxSize)`
returns (given fuel for its recursion depth), and every element of what it returns
has length at most `maxSize`. -/
theorem limitTo_elements_length_le (a : List GoString) (maxSize : Int) (h : 0 < maxSize) :
    ∃ r : List GoString,
      (∀ fuel : Nat, limitToFuel a ≤ fuel → limitTo fuel a maxSize = .ok r) ∧
      ∀ s ∈ r, (s.length : Int) ≤ maxSize := by
  refine ⟨specLimitTo a maxSize.toNat, fun fuel hf => limitTo_eq a maxSize h fuel hf, ?_⟩
  intro s hs
  have h1 := specLimitTo_length_le maxSize.toNat (by omega) a s hs
  omega

theorem limitTo_elements_length_le_witness :
    (0 : Int) < 6 ∧ ∃ r : List GoString,
      (∀ fuel : Nat, limitToFuel [utf8 "Hello World", utf8 "", utf8 "Good Bye"] ≤ fuel →
        limitTo fuel [utf8 "Hello World", utf8 "", utf8 "Good Bye"] 6 = .ok r) ∧
      ∀ s ∈ r, (s.length : Int) ≤ 6 :=
  ⟨by decide,
    limitTo_elements_length_le [utf8 "Hello World", utf8 "", utf8 "Good Bye"] 6 (by decide)⟩

/-- C2: for every string `s` (empty or not) and every positive `m`, `limitTo([s], m)`
returns a list whose concatenation is `s`; for every list `a`, `limitTo(a, m)`
returns a list whose concatenation is the concatenation of `a`. -/
theorem limitTo_concat_eq (a : List GoString) (s : GoString) (m : Int) (h : 0 < m) :
    (∃ r : List GoString,
      (∀ fuel : Nat, limitToFuel [s] ≤ fuel → limitTo fuel [s] m = .ok r) ∧ r.flatten = s) ∧
    (∃ r : List GoString,
      (∀ fuel : Nat, limitToFuel a ≤ fuel → limitTo fuel a m = .ok r) ∧
      r.flatten = a.flatten) := by
  have hm : 0 < m.toNat := by omega
  refine ⟨⟨specLimitTo [s] m.toNat, fun fuel hf => limitTo_eq [s] m h fuel hf, ?_⟩,
    ⟨specLimitTo a m.toNat, fun fuel hf => limitTo_eq a m h fuel hf, ?_⟩⟩
  · rw [specLimitTo_flatten m.toNat hm]; simp
  · exact specLimitTo_flatten m.toNat hm a

theorem limitTo_concat_eq_witness :
    (0 : Int) < 6 ∧ (∃ r : List GoString,
      (∀ fuel : Nat, limitToFuel [utf8 "Hello Universe"] ≤ fuel →
        limitTo fuel [utf8 "Hello Universe"] 6 = .ok r) ∧ r.flatten = utf8 "Hello Universe") ∧
    (∃ r : List GoString,
      (∀ fuel : Nat, limitToFuel [utf8 "Hello World", utf8 "Good Bye"] ≤ fuel →
        limitTo fuel [utf8 "Hello World", utf8 "Good Bye"] 6 = .ok r) ∧
      r.flatten = [utf8 "Hello World", utf8 "Good Bye"].flatten) :=
  ⟨by decide,
    limitTo_concat_eq [utf8 "Hello World", utf8 "Good Bye"] (utf8 "Hello Universe") 6 (by decide)⟩

/-- C3: for every list `a` and every positive `maxSize`, `limitTo(a, maxSize)` returns
the in-order concatenation of one piece list per input element, where an element of
length at most `maxSize` contributes itself and a longer element contributes its
consecutive `maxSize`-length substrings followed by its remainder; on the list of
`TestLimitTo` at width 6 it returns the seven strings the test expects. -/
theorem limitTo_eq_specLimitTo (a : List GoString) (maxSize : Int) (h : 0 < maxSize) :
    (∀ fuel : Nat, limitToFuel a ≤ fuel →
      limitTo fuel a maxSize = .ok ((a.map (specPieces maxSize.toNat)).flatten)) ∧
    (∀ fuel : Nat, limitToFuel [utf8 "Hello World", utf8 "Hello Universe", utf8 "Good Bye"] ≤ fuel →
      limitTo fuel [utf8 "Hello World", utf8 "Hello Universe", utf8 "Good Bye"] 6 =
        .ok [utf8 "Hello ", utf8 "World", utf8 "Hello ", utf8 "Univer", utf8 "se",
          utf8 "Good B", utf8 "ye"]) := by
  refine ⟨fun fuel hf => limitTo_eq a maxSize h fuel hf, ?_⟩
  intro fuel hf
  rw [limitTo_eq _ 6 (by decide) fuel hf]
  decide

theorem limitTo_eq_specLimitTo_witness :
    (0 : Int) < 3 ∧ (∀ fuel : Nat, limitToFuel [utf8 "abcdefg", utf8 "", utf8 "hi"] ≤ fuel →
      limitTo fuel [utf8 "abcdefg", utf8 "", utf8 "hi"] 3 =
        .ok (([utf8 "abcdefg", utf8 "", utf8 "hi"].map (specPieces (3 : Int).toNat)).flatten)) ∧
    (∀ fuel : Nat, limitToFuel [utf8 "Hello World", utf8 "Hello Universe", utf8 "Good Bye"] ≤ fuel →
      limitTo fuel [utf8 "Hello World", utf8 "Hello Universe", utf8 "Good Bye"] 6 =
        .ok [utf8 "Hello ", utf8 "World", utf8 "Hello ", utf8 "Univer", utf8 "se",
          utf8 "Good B", utf8 "ye"]) :=
  ⟨by decide, limitTo_eq_specLimitTo [utf8 "abcdefg", utf8 "", utf8 "hi"] 3 (by decide)⟩

/-- C8, counterexample: `limitTo([""], 1)` returns `[""]`, not the empty list, and
`limitTo(["ab", "", "c"], 1)` returns `["a", "b", "", "c"]`, which holds an empty
string. -/
theorem limitTo_emits_empty_string :
    limitTo 1 [utf8 ""] 1 = .ok [utf8 ""] ∧ limitTo 1 [utf8 ""] 1 ≠ .ok [] ∧
    limitTo 2 [utf8 "ab", utf8 "", utf8 "c"] 1 = .ok [utf8 "a", utf8 "b", utf8 "", utf8 "c"] := by
  decide

/-- C8, amended: for every positive `maxSize`, `limitTo` emits an empty input element
unchanged and emits no other empty string: what it returns holds exactly as many
empty strings as the input, and `limitTo([""], maxSize)` returns `[""]`. -/
theorem limitTo_empty_strings (a : List GoString) (maxSize : Int) (h : 0 < maxSize) :
    (∃ r : List GoString,
      (∀ fuel : Nat, limitToFuel a ≤ fuel → limitTo fuel a maxSize = .ok r) ∧
      r.count [] = a.count []) ∧
    (∀ fuel : Nat, 1 ≤ fuel → limitTo fuel [[]] maxSize = .ok [[]]) := by
  have hm : 0 < maxSize.toNat := by omega
  refine ⟨⟨specLimitTo a maxSize.toNat, fun fuel hf => limitTo_eq a maxSize h fuel hf,
    specLimitTo_count_nil maxSize.toNat hm a⟩, ?_⟩
  intro fuel hf
  rw [limitTo_eq [[]] maxSize h fuel (by simpa [limitToFuel] using hf)]
  simp [specLimitTo, specPieces]

theorem limitTo_empty_strings_witness :
    (0 : Int) < 1 ∧ (∃ r : List GoString,
      (∀ fuel : Nat, limitToFuel [utf8 "ab", utf8 "", utf8 "c"] ≤ fuel →
        limitTo fuel [utf8 "ab", utf8 "", utf8 "c"] 1 = .ok r) ∧
      r.count [] = [utf8 "ab", utf8 "", utf8 "c"].count []) ∧
    (∀ fuel : Nat, 1 ≤ fuel → limitTo fuel [[]] 1 = .ok [[]]) :=
  ⟨by decide, limitTo_empty_strings [utf8 "ab", utf8 "", utf8 "c"] 1 (by decide)⟩

/-! ## The render engine -/

/-- C6: for every binding, after the escaping step of `writeSvg` every line holds
none of the bytes `<`, `>`, `'`, `"`, and every `&` in it starts one of the five
entities `&amp;` `&lt;` `&gt;` `&#39;` `&#34;`.  The rendering step of `writeSvg`
hands the template engine one map, the same for every engine, whose lines are the
escaped lines of the binding; and `writeSvg` as a whole either returns the error of
the template lookup without calling the engine, or calls the engine on the template
bytes and a map holding escaped lines only.  On the sample world the line
`<script>` is written as `&lt;script&gt;`. -/
theorem writeSvg_lines_escaped (g : Globals) (b : binding) (buf : GoString) :
    (∀ l ∈ (writeSvgEscape b).Lines, Escaped l) ∧
    (∃ m : List (GoString × Value),
      EscapedMap m ∧
      m.lookup (utf8 "Lines") =
        (if b.Lines = [] then none else some (Value.strings (b.Lines.map EscapeString))) ∧
      ∀ (ext : Extern) (w : ResponseWriter),
        writeSvgRender ext buf b w =
          match ext.parseAndRender buf m with
          | .error cause => (cause, w)
          | .ok out => (ext.writeErr out, w ++ [Call.write out])) ∧
    (∃ m : List (GoString × Value),
      EscapedMap m ∧
      ∀ (ext : Extern) (w : ResponseWriter),
        match writeSvgResolve ext g b with
        | .error err => writeSvg ext g b w = (some err, w)
        | .ok (buf1, _) =>
          writeSvg ext g b w =
            match ext.parseAndRender buf1 m with
            | .error cause => (cause, w)
            | .ok out => (ext.writeErr out, w ++ [Call.write out])) ∧
    writeSvg sampleExtern sampleGlobals ⟨[utf8 "<script>"], 0, 0, 0, [], utf8 "terminal"⟩ [] =
      (none, [Call.write (utf8 "<svg>&lt;script&gt;")]) := by
  refine ⟨escaped_writeSvgEscape b, ?_, ?_, by decide⟩
  · refine ⟨structsMap (writeSvgEscape b), escapedMap_structsMap_writeSvgEscape b, ?_, ?_⟩
    · rw [structsMap_lookup_Lines]
      simp [writeSvgEscape]
    · intro ext w
      rfl
  · by_cases hc : Globals.cached g.noCacheFlag = true
    · cases hget : g.templates.get b.Template with
      | some buf0 =>
        refine ⟨structsMap (writeSvgEscape b), escapedMap_structsMap_writeSvgEscape b, ?_⟩
        intro ext w
        simp only [writeSvgResolve, writeSvg, hc, hget, if_true, writeSvgRender]
      | none =>
        cases hterm : g.templates.get (utf8 "terminal") with
        | none =>
          refine ⟨[], fun _ _ h => absurd h (List.not_mem_nil _), ?_⟩
          intro ext w
          simp only [writeSvgResolve, writeSvg, hc, hget, hterm, if_true]
        | some buf0 =>
          refine ⟨structsMap (writeSvgEscape
            { b with Lines := [noSuchTemplate b.Template], Width := 0 }),
            escapedMap_structsMap_writeSvgEscape _, ?_⟩
          intro ext w
          simp only [writeSvgResolve, writeSvg, hc, hget, hterm, if_true, writeSvgRender]
    · refine ⟨structsMap (writeSvgEscape b), escapedMap_structsMap_writeSvgEscape b, ?_⟩
      intro ext w
      have hc2 : Globals.cached g.noCacheFlag = false := by simpa using hc
      cases hload : loadTemplateFromFS ext (b.Template ++ utf8 ".svg") with
      | error err =>
        simp [writeSvgResolve, writeSvg, hc2, hload]
      | ok r =>
        obtain ⟨name, buf0⟩ := r
        simp [writeSvgResolve, writeSvg, hc2, hload, writeSvgRender]

theorem writeSvg_lines_escaped_witness :
    Escaped (utf8 "&lt;script&gt; &amp; &#34;x&#34;") :=
  (writeSvg_lines_escaped sampleGlobals
    ⟨[utf8 "<script> & \"x\""], 0, 0, 0, [], utf8 "terminal"⟩ (utf8 "<svg>")).1
    (utf8 "&lt;script&gt; &amp; &#34;x&#34;") (by decide)

/-! ## The template store -/

/-- C5: in cached mode, for a template name absent from the map while the map holds
`terminal`, the lookup of `writeSvg` takes the `terminal` bytes and leaves a binding
whose lines are exactly the single line made of the text `No such template`, a
blank, a backquote, the name and a quote, whose width is 0 and whose radius,
padding, padding colour (and template name) are unchanged; `writeSvg` then renders
those bytes with that binding: it calls the template engine on the `terminal` bytes
and one map, the same for every engine, in which the lines are that single line
escaped, the width is absent and radius, padding and padding colour are those of
the request.  On the sample world the name `nope` gives the line spelled out in the
statement. -/
theorem writeSvg_fallback (g : Globals) (b : binding) (buf : GoString)
    (hc : Globals.cached g.noCacheFlag = true)
    (hmiss : g.templates.get b.Template = none)
    (hterm : g.templates.get (utf8 "terminal") = some buf) :
    (∀ ext : Extern, writeSvgResolve ext g b =
      .ok (buf, ⟨[utf8 "No such template `" ++ b.Template ++ utf8 "'"], 0, b.Radius,
        b.Padding, b.PaddingColor, b.Template⟩)) ∧
    (∀ (ext : Extern) (w : ResponseWriter), writeSvg ext g b w =
      writeSvgRender ext buf
        ⟨[utf8 "No such template `" ++ b.Template ++ utf8 "'"], 0, b.Radius, b.Padding,
          b.PaddingColor, b.Template⟩ w) ∧
    (∃ m : List (GoString × Value),
      m.lookup (utf8 "Lines") = some (Value.strings
        [EscapeString (utf8 "No such template `" ++ b.Template ++ utf8 "'")]) ∧
      m.lookup (utf8 "Width") = none ∧
      m.lookup (utf8 "Radius") = (if b.Radius = 0 then none else some (Value.int b.Radius)) ∧
      m.lookup (utf8 "Padding") =
        (if b.Padding = 0 then none else some (Value.int b.Padding)) ∧
      m.lookup (utf8 "PaddingColor") =
        (if b.PaddingColor = [] then none else some (Value.string b.PaddingColor)) ∧
      ∀ (ext : Extern) (w : ResponseWriter),
        writeSvg ext g b w =
          match ext.parseAndRender buf m with
          | .error cause => (cause, w)
          | .ok out => (ext.writeErr out, w ++ [Call.write out])) ∧
    writeSvgResolve sampleExtern sampleGlobals ⟨[utf8 "hi"], 7, 2, 3, utf8 "red", utf8 "nope"⟩ =
      .ok (utf8 "<svg>", ⟨[utf8 "No such template `nope'"], 0, 2, 3, utf8 "red", utf8 "nope"⟩) ∧
    writeSvg sampleExtern sampleGlobals ⟨[utf8 "hi"], 7, 2, 3, utf8 "red", utf8 "nope"⟩ [] =
      (none, [Call.write (utf8 "<svg>No such template `nope&#39;")]) := by
  have h1 : ∀ ext : Extern, writeSvgResolve ext g b =
      .ok (buf, ⟨[utf8 "No such template `" ++ b.Template ++ utf8 "'"], 0, b.Radius,
        b.Padding, b.PaddingColor, b.Template⟩) := by
    intro ext
    simp [writeSvgResolve, hc, hmiss, hterm, noSuchTemplate]
  have h2 : ∀ (ext : Extern) (w : ResponseWriter), writeSvg ext g b w =
      writeSvgRender ext buf
        ⟨[utf8 "No such template `" ++ b.Template ++ utf8 "'"], 0, b.Radius, b.Padding,
          b.PaddingColor, b.Template⟩ w := by
    intro ext w
    simp only [writeSvg, h1 ext]
  refine ⟨h1, h2, ?_, by decide, by decide⟩
  refine ⟨structsMap (writeSvgEscape
    ⟨[utf8 "No such template `" ++ b.Template ++ utf8 "'"], 0, b.Radius, b.Padding,
      b.PaddingColor, b.Template⟩), ?_, ?_, ?_, ?_, ?_, ?_⟩
  · rw [structsMap_lookup_Lines]
    simp [writeSvgEscape]
  · rw [structsMap_lookup_Width]
    simp [writeSvgEscape]
  · rw [structsMap_lookup_Radius]
    simp [writeSvgEscape]
  · rw [structsMap_lookup_Padding]
    simp [writeSvgEscape]
  · rw [structsMap_lookup_PaddingColor]
    simp [writeSvgEscape]
  · intro ext w
    rw [h2 ext w]
    rfl

theorem writeSvg_fallback_witness :
    writeSvgResolve sampleExtern
        ⟨none, [(utf8 "terminal", utf8 "<svg>"), (utf8 "browser", utf8 "<b>")]⟩
        ⟨[utf8 "hi"], 7, 2, 3, utf8 "red", utf8 "<x>"⟩ =
      .ok (utf8 "<svg>", ⟨[utf8 "No such template `<x>'"], 0, 2, 3, utf8 "red", utf8 "<x>"⟩) :=
  (writeSvg_fallback ⟨none, [(utf8 "terminal", utf8 "<svg>"), (utf8 "browser", utf8 "<b>")]⟩
    ⟨[utf8 "hi"], 7, 2, 3, utf8 "red", utf8 "<x>"⟩ (utf8 "<svg>")
    (by decide) (by decide) (by decide)).1 sampleExtern

/-! ## The binding model -/

/-- C7, counterexample: for the query `template=` (the key `template` with an empty
value) `parseUrlValues` returns a binding whose template name is empty. -/
theorem parseUrlValues_empty_template :
    (parseUrlValues sampleExtern [] [(utf8 "template", [utf8 ""])]).1.Template = [] := by
  decide

/-- C7, amended: for every parameter mapping in which no key that lowers to
`template` has an empty first value, the binding returned by `parseUrlValues` has a
non-empty template name; and when no key lowers to `template` the name is
`terminal`.  Both hold for every order of the keys and also when the parse ends
early on a number that does not parse. -/
theorem parseUrlValues_template (ext : Extern) (w : ResponseWriter)
    (values : List (GoString × List GoString)) :
    ((∀ kv ∈ values, ToLower ext.mapLower kv.1 = utf8 "template" → kv.2.head? ≠ some []) →
      (parseUrlValues ext w values).1.Template ≠ []) ∧
    ((∀ kv ∈ values, ToLower ext.mapLower kv.1 ≠ utf8 "template") →
      (parseUrlValues ext w values).1.Template = utf8 "terminal") := by
  have key := parseUrlValuesLoop_template ext values
    { binding.zero with Template := utf8 "terminal" } w
  constructor
  · intro hne h0
    rcases key with h | ⟨kv, hmem, h1, h2⟩
    · rw [parseUrlValues, h] at h0
      exact absurd h0 (by decide)
    · rw [parseUrlValues] at h0
      rw [h0] at h2
      exact hne kv hmem h1 h2
  · intro hno
    rcases key with h | ⟨kv, hmem, h1, _⟩
    · rw [parseUrlValues, h]
    · exact absurd h1 (hno kv hmem)

theorem parseUrlValues_template_witness :
    (parseUrlValues sampleExtern []
      [(utf8 "Template", [utf8 "browser"]), (utf8 "width", [utf8 "x"])]).1.Template ≠ [] ∧
    (parseUrlValues sampleExtern [] [(utf8 "line", [utf8 "Hi"])]).1.Template = utf8 "terminal" :=
  ⟨(parseUrlValues_template sampleExtern []
      [(utf8 "Template", [utf8 "browser"]), (utf8 "width", [utf8 "x"])]).1 (by decide),
    (parseUrlValues_template sampleExtern [] [(utf8 "line", [utf8 "Hi"])]).2 (by decide)⟩

/-- C9, the code at the failing input: the mapping with the keys `line` and `lines`
can be visited in two orders, and `parseUrlValues` returns the lines of `lines` in
one and the line of `line` in the other, so the two bindings differ. -/
theorem parseUrlValues_depends_on_order (ext : Extern) (w : ResponseWriter) :
    List.Perm [(utf8 "line", [utf8 "a"]), (utf8 "lines", [utf8 "b"])]
      [(utf8 "lines", [utf8 "b"]), (utf8 "line", [utf8 "a"])] ∧
    (parseUrlValues ext w [(utf8 "line", [utf8 "a"]), (utf8 "lines", [utf8 "b"])]).1 =
      ⟨[utf8 "b"], 0, 0, 0, [], utf8 "terminal"⟩ ∧
    (parseUrlValues ext w [(utf8 "lines", [utf8 "b"]), (utf8 "line", [utf8 "a"])]).1 =
      ⟨[utf8 "a"], 0, 0, 0, [], utf8 "terminal"⟩ ∧
    (parseUrlValues ext w [(utf8 "line", [utf8 "a"]), (utf8 "lines", [utf8 "b"])]).1 ≠
      (parseUrlValues ext w [(utf8 "lines", [utf8 "b"]), (utf8 "line", [utf8 "a"])]).1 := by
  have h1 : (parseUrlValues ext w [(utf8 "line", [utf8 "a"]), (utf8 "lines", [utf8 "b"])]).1 =
      ⟨[utf8 "b"], 0, 0, 0, [], utf8 "terminal"⟩ := rfl
  have h2 : (parseUrlValues ext w [(utf8 "lines", [utf8 "b"]), (utf8 "line", [utf8 "a"])]).1 =
      ⟨[utf8 "a"], 0, 0, 0, [], utf8 "terminal"⟩ := rfl
  refine ⟨List.Perm.swap _ _ _, h1, h2, ?_⟩
  rw [h1, h2]
  decide

/-! ## The HTTP surface and the template store -/

/-- C4, the code at the failing input: for the query `width=abc`, `parseUrlValues`
reports the `Atoi` error with status 500 and returns the default binding; `handleSvg`
then sets the content type and calls `writeSvg`, which (with a `terminal` template
that renders) writes the rendered bytes after the error. -/
theorem handleSvg_renders_after_parse_error (ext : Extern) (buf out : GoString)
    (w : ResponseWriter) :
    parseUrlValues ext w [(utf8 "width", [utf8 "abc"])] =
      (⟨[], 0, 0, 0, [], utf8 "terminal"⟩,
        w ++ [Call.httpError (.numError (utf8 "Atoi") (utf8 "abc") .ErrSyntax) 500]) ∧
    handleSvg { ext with parseAndRender := fun _ _ => .ok out, writeErr := fun _ => none }
        ⟨some false, [(utf8 "terminal", buf)]⟩ [(utf8 "width", [utf8 "abc"])] w =
      ((w ++ [Call.httpError (.numError (utf8 "Atoi") (utf8 "abc") .ErrSyntax) 500]) ++
        [Call.headerSet (utf8 "Content-Type") (utf8 "image/svg+xml")]) ++ [Call.write out] :=
  ⟨rfl, rfl⟩

/-- C10, the code at the failing input: in a directory whose one entry is the
readable file `FOO.SVG`, `main` in cached mode takes the entry (its lowered name
ends in `.svg`), `loadTemplateFromFS` refuses the name (it does not end in `.svg`)
and `main` ends in `log.Panic` with the error `not found`; nothing is stored. -/
theorem main_panics_on_upper_case_suffix (ext : Extern) (contents : GoString) :
    main { ext with readDir := .ok [⟨utf8 "FOO.SVG", false⟩], readFile := fun _ => .ok contents }
        (some false) = .error (.panic (.errorsNew (utf8 "not found"))) ∧
    main { ext with readDir := .ok [⟨utf8 "FOO.SVG", false⟩], readFile := fun _ => .ok contents }
        none = .error (.panic (.errorsNew (utf8 "not found"))) :=
  ⟨rfl, rfl⟩

end MakeConsole
